import Mathlib

set_option maxHeartbeats 1000000
set_option maxRecDepth 100000

/-!
Verification development for the kincaid readability library
(archer884/kincaid, src/lib.rs).

The Rust source is shallowly embedded as executable Lean definitions:

* The case-insensitive regular expressions are modelled over lists of
  characters.  The word pattern, the sentence pattern and the vowel-group
  pattern are implemented directly (their find_iter semantics); the two
  exception-pattern tables (SUB_PATTERNS, ADD_PATTERNS) are kept verbatim
  as strings and compiled by a small pattern reader into an executable
  matcher covering exactly the constructs those tables use (literals,
  character classes, optional groups, word boundaries at either end).
* Unicode letter classes are modelled over ASCII letters; case
  insensitivity is modelled by ASCII lowercasing.  No claim below is
  sensitive to the letter repertoire.
* f64 arithmetic is modelled exactly by the type FP: a rational number
  together with the IEEE special values plus/minus infinity and NaN,
  with IEEE rules for arithmetic, comparison and clamp.  The claims
  under verification (clamping, flooring, NaN propagation, band lookup)
  are insensitive to rounding, and the magnitudes involved cannot
  overflow f64, so exact rational arithmetic is a faithful model.
-/

/-- The apostrophe character (U+0027), kept out of string literals. -/
def apos : Char := Char.ofNat 39

/-- One-character string holding the apostrophe. -/
def aposS : String := String.singleton apos

/-- Characters matched by the case-insensitive vowel-group class [aeiou]. -/
def isVowel (c : Char) : Bool :=
  c.toLower = 'a' || c.toLower = 'e' || c.toLower = 'i' || c.toLower = 'o' || c.toLower = 'u'

/-- Characters matched by the sentence-boundary class [.?!]. -/
def isSentChar (c : Char) : Bool :=
  c = '.' || c = '?' || c = '!'

/-- Number of maximal runs of characters satisfying p, given whether the
previous character satisfied p.  This is the find_iter match count of a
case-insensitive single-class plus regex such as [aeiou]+ or [.?!]+:
leftmost non-overlapping greedy matches of such a regex are exactly the
maximal runs of the class. -/
def countRunsAux (p : Char → Bool) : Bool → List Char → Nat
  | _, [] => 0
  | prevIn, c :: cs => (if p c && !prevIn then 1 else 0) + countRunsAux p (p c) cs

/-- Match count of a single-class plus regex over a character list. -/
def countRuns (p : Char → Bool) (cs : List Char) : Nat :=
  countRunsAux p false cs

/-- Independent characterization used by the specification: the number of
maximal runs of characters satisfying p equals the number of positions i
that satisfy p and are either position 0 or preceded by a position not
satisfying p (run starts). -/
def runStarts (p : Char → Bool) (cs : List Char) : Nat :=
  (List.range cs.length).countP
    (fun i => p (cs.getD i ' ') && (decide (i = 0) || !p (cs.getD (i - 1) ' ')))

lemma countRunsAux_eq_countP (p : Char → Bool) :
    ∀ (cs : List Char) (b : Bool),
      countRunsAux p b cs =
        (List.range cs.length).countP
          (fun i => p (cs.getD i ' ') && (if i = 0 then !b else !p (cs.getD (i - 1) ' ')))
  | [], b => by simp [countRunsAux]
  | c :: cs, b => by
    rw [countRunsAux, countRunsAux_eq_countP p cs (p c)]
    rw [List.length_cons, List.range_succ_eq_map, List.countP_cons, List.countP_map]
    have hcong :
        List.countP
            (fun i => p (cs.getD i ' ') && (if i = 0 then !(p c) else !p (cs.getD (i - 1) ' ')))
            (List.range cs.length) =
          List.countP
            ((fun i => p ((c :: cs).getD i ' ') &&
                (if i = 0 then !b else !p ((c :: cs).getD (i - 1) ' '))) ∘ Nat.succ)
            (List.range cs.length) := by
      apply List.countP_congr
      intro i _
      rcases i with _ | j
      · simp
      · simp [Nat.succ_sub_one]
    rw [hcong]
    simp [Nat.add_comm]

/-- The regex match count of a single-class plus regex is the run-start count. -/
lemma countRuns_eq_runStarts (p : Char → Bool) (cs : List Char) :
    countRuns p cs = runStarts p cs := by
  rw [countRuns, runStarts, countRunsAux_eq_countP]
  apply List.countP_congr
  intro i _
  rcases i with _ | j <;> simp

/-! ### A small matcher for the exception-pattern language

The SUB and ADD tables use only: literal characters, character classes,
an optional group (a parenthesized group or a single atom followed by a
question mark), and word boundaries at the start or end of the pattern.
RegexSet::matches only reports, per pattern, whether it matches anywhere
in the haystack, which is what the matcher below decides. -/

/-- Word characters for the word-boundary assertion: the regex word class
(letters, digits, underscore; Unicode modelled over ASCII). -/
def isWordChar (c : Char) : Bool :=
  c.isAlphanum || c = '_'

/-- A single-character matcher: a literal or a character class. -/
inductive RAtom where
  | lit (c : Char)
  | cls (cs : List Char)
deriving DecidableEq

/-- A pattern element: a mandatory atom or an optional group of atoms. -/
inductive RTok where
  | one (a : RAtom)
  | opt (g : List RAtom)
deriving DecidableEq

/-- A compiled exception pattern: an optional leading word boundary, a
sequence of elements, and an optional trailing word boundary. -/
structure RPat where
  lb : Bool
  toks : List RTok
  rb : Bool
deriving DecidableEq

/-- Does the atom match this character? -/
def matchAtom (a : RAtom) (c : Char) : Bool :=
  match a with
  | RAtom.lit d => c = d
  | RAtom.cls s => s.contains c

/-- Match a run of atoms against the front of the input, returning the rest. -/
def matchAtoms : List RAtom → List Char → Option (List Char)
  | [], cs => some cs
  | _ :: _, [] => none
  | a :: as, c :: cs => if matchAtom a c then matchAtoms as cs else none

/-- Match the elements against the front of the input; k is the test applied
to the remaining input once all elements are consumed (used for the trailing
word boundary).  An optional group is tried both taken and skipped. -/
def matchToks : List RTok → List Char → (List Char → Bool) → Bool
  | [], cs, k => k cs
  | RTok.one a :: ts, cs, k =>
    match cs with
    | [] => false
    | c :: cs => matchAtom a c && matchToks ts cs k
  | RTok.opt g :: ts, cs, k =>
    (match matchAtoms g cs with
     | some cs => matchToks ts cs k
     | none => false) || matchToks ts cs k

/-- Is the character at index i (if any) a word character? -/
def wcAt (cs : List Char) (i : Nat) : Bool :=
  isWordChar (cs.getD i ' ')

/-- The word-boundary assertion at position i of the haystack: exactly one
of the neighbouring positions holds a word character. -/
def boundaryAt (cs : List Char) (i : Nat) : Bool :=
  (if i = 0 then false else wcAt cs (i - 1)) != wcAt cs i

/-- Does the pattern match the haystack starting at position i? -/
def matchPatAt (p : RPat) (cs : List Char) (i : Nat) : Bool :=
  (!p.lb || boundaryAt cs i) &&
    matchToks p.toks (cs.drop i) (fun rest => !p.rb || boundaryAt cs (cs.length - rest.length))

/-- Does the pattern match anywhere in the haystack?  This is the per-pattern
answer of RegexSet::matches. -/
def patMatches (p : RPat) (cs : List Char) : Bool :=
  (List.range (cs.length + 1)).any (fun i => matchPatAt p cs i)

/-! ### Reading the pattern strings

The tables are kept as verbatim strings; parsePat compiles one string of
the restricted pattern language into an RPat, mirroring the construction
of the RegexSet (construction fails loudly if a pattern does not compile;
here a failing pattern is simply dropped by filterMap, and the size
theorems show that none is dropped). -/

/-- Read a character class body up to the closing bracket. -/
def parseCC : List Char → Option (List Char × List Char)
  | [] => none
  | c :: rest =>
    if c = ']' then some ([], rest)
    else
      match parseCC rest with
      | some (s, r) => some (c :: s, r)
      | none => none

/-- Read a parenthesized group body (atoms only) up to the closing paren. -/
def parseGrp : Nat → List Char → Option (List RAtom × List Char)
  | 0, _ => none
  | _, [] => none
  | fuel + 1, c :: rest =>
    if c = ')' then some ([], rest)
    else if c = '[' then
      match parseCC rest with
      | some (s, r) =>
        match parseGrp fuel r with
        | some (g, r2) => some (RAtom.cls s :: g, r2)
        | none => none
      | none => none
    else if c = '\\' || c = '(' || c = '?' then none
    else
      match parseGrp fuel rest with
      | some (g, r2) => some (RAtom.lit c :: g, r2)
      | none => none

/-- Wrap an atom, consuming a trailing question mark if present. -/
def withOpt (a : RAtom) : List Char → (RTok × List Char)
  | c :: rest => if c = '?' then (RTok.opt [a], rest) else (RTok.one a, c :: rest)
  | [] => (RTok.one a, [])

/-- Read a sequence of pattern elements. -/
def parseToks : Nat → List Char → Option (List RTok)
  | 0, _ => none
  | _, [] => some []
  | fuel + 1, c :: rest =>
    if c = '[' then
      match parseCC rest with
      | some (s, r) =>
        let (t, r2) := withOpt (RAtom.cls s) r
        match parseToks fuel r2 with
        | some ts => some (t :: ts)
        | none => none
      | none => none
    else if c = '(' then
      match parseGrp rest.length rest with
      | some (g, r) =>
        match r with
        | q :: r2 =>
          if q = '?' then
            match parseToks fuel r2 with
            | some ts => some (RTok.opt g :: ts)
            | none => none
          else none
        | [] => none
      | none => none
    else if c = '\\' || c = ')' || c = '?' then none
    else
      let (t, r2) := withOpt (RAtom.lit c) rest
      match parseToks fuel r2 with
      | some ts => some (t :: ts)
      | none => none

/-- Compile one pattern string of the restricted language into an RPat:
strip a word boundary from either end, then read the elements. -/
def parsePat (s : String) : Option RPat :=
  let cs := s.toList
  let lb := cs.take 2 = ['\\', 'b']
  let cs := if lb then cs.drop 2 else cs
  let rb := 2 ≤ cs.length ∧ cs.drop (cs.length - 2) = ['\\', 'b']
  let cs := if rb then cs.take (cs.length - 2) else cs
  match parseToks (cs.length + 1) cs with
  | some ts => some ⟨lb, ts, rb⟩
  | none => none

/-! ### The exception-pattern tables (verbatim from lib.rs)

Apostrophes are spliced in via aposS to keep them out of string literals;
the strings are otherwise byte-for-byte the Rust pattern literals. -/

/-- SUB_PATTERNS of lib.rs: vowel groups erroneously counted as syllables. -/
def SUB_PATTERNS : List String := [
  "e\\b",
  "ey\\b",
  "ed\\b",
  "ay\\b",
  "[kmrpbdtnvrw]es\\b",
  "ely\\b",
  "oy\\b",
  "cia",
  "[aeilouy]le\\b",
  "tia[nl]?\\b",
  "tia([nl]s)?\\b",
  "[aeo]ym",
  "eness\\b",
  "\\bfore",
  "ay[bclntrw]",
  "ement",
  "iles\\b",
  "[ao]les\\b",
  "eman\\b",
  "aying\\b",
  "oy[cln]",
  "eful",
  "\\bey",
  "geon",
  "\\bhome",
  "eyn",
  "ically",
  "eless",
  "sian\\b",
  "yles",
  "\\bwhite",
  "eway",
  "georg",
  "lles\\b",
  "busine",
  "illia",
  "ules\\b",
  "\\bhym",
  "ryst",
  "eyl",
  "ehou",
  "eyw",
  "ekeep",
  "people",
  "every",
  "\\blife",
  "giu",
  "eyin",
  "eout",
  "oying\\b",
  "gues\\b",
  "\\breine",
  "geou",
  "ques\\b",
  "vior",
  "sewo",
  "oseb",
  "eyc",
  "\\bspace",
  "\\bstone",
  "eover",
  "ehol",
  "iliar",
  "estone",
  "eyb",
  "oyk",
  "velan",
  "piet",
  "\\bgia",
  "somet",
  "esvil",
  "lyst",
  "arriag",
  "gior"]

/-- ADD_PATTERNS of lib.rs: extra syllables the vowel-group count misses. -/
def ADD_PATTERNS : List String := [
  "y\\b",
  "ia",
  "\\bmc",
  "[il]e\\b",
  "ted\\b",
  "ee\\b",
  "io\\b",
  "ded\\b",
  "[io]er\\b",
  "y[bckglmnrstwxv]",
  "sms?\\b",
  "eo",
  "[eior]ed\\b",
  "iol",
  "\\bhy",
  "iu",
  "s" ++ aposS,
  "oe\\b",
  "iot",
  "tua",
  "aue",
  "ea\\b",
  "iest\\b",
  "ios",
  "yst",
  "nte\\b",
  "ce" ++ aposS ++ "s",
  "ying\\b",
  "[bcdfgkopt]led\\b",
  "ciat",
  "lement",
  "typ",
  "ly[dehops]",
  "[drv]ious",
  "z" ++ aposS ++ "s\\b",
  "ae\\b",
  "io[mpr]",
  "tre\\b",
  "ione\\b",
  "[cdehlorn]ue\\b",
  "se" ++ aposS ++ "s",
  "nua",
  "x" ++ aposS,
  "oing",
  "yz",
  "creat",
  "lua",
  "iod",
  "\\breass",
  "eing\\b",
  "dua",
  "[bdprz]ion",
  "iello\\b",
  "oa\\b",
  "ge" ++ aposS ++ "s",
  "phys",
  "eact",
  "ioc",
  "iog",
  "scien",
  "dys",
  "uou",
  "\\brein",
  "ienn",
  "rya",
  "bre\\b",
  "tke\\b",
  "ryd",
  "sh" ++ aposS ++ "s\\b",
  "rua",
  "ryp",
  "rient",
  "uing",
  "xual",
  "eely\\b",
  "leman\\b",
  "fluen",
  "he" ++ aposS,
  "dre\\b",
  "iet",
  "loui",
  "dl\\b",
  "\\bio",
  "rys",
  "tui",
  "rye",
  "\\bcoe",
  "\\breali",
  "ntes\\b",
  "ch" ++ aposS,
  "mye",
  "eeman\\b",
  "ryo",
  "linea",
  "theat",
  "reapp",
  "oers\\b",
  "tys",
  "\\bcyp",
  "eemp",
  "nys",
  "aic\\b",
  "cua",
  "tl\\b",
  "tres\\b",
  "ciano",
  "lione",
  "eand",
  "\\bdya",
  "gyp",
  "croat",
  "heroi",
  "rearr",
  "eex",
  "cre\\b",
  "oniou",
  "eum\\b",
  "fred\\b",
  "dien",
  "oua",
  "oincid",
  "coordi",
  "nucle",
  "nyd",
  "\\breen",
  "\\breun",
  "bys",
  "iale\\b",
  "ifiers",
  "rean",
  "pre\\b",
  "iore\\b",
  "-in\\b"]

/-- The compiled SUB RegexSet (field sub of Kincaid). -/
def subSet : List RPat := SUB_PATTERNS.filterMap parsePat

/-- The compiled ADD RegexSet (field add of Kincaid). -/
def addSet : List RPat := ADD_PATTERNS.filterMap parsePat

/-! ### The syllable estimator (Kincaid::syllables_in_word) -/

/-- ASCII lowercasing of a word, modelling the case-insensitive RegexSet. -/
def lowerList (cs : List Char) : List Char :=
  cs.map Char.toLower

/-- Number of distinct SUB patterns matching anywhere in the word:
self.sub.matches(text).iter().count(). -/
def subMatchCount (w : String) : Nat :=
  subSet.countP (fun p => patMatches p (lowerList w.toList))

/-- Number of distinct ADD patterns matching anywhere in the word:
self.add.matches(text).iter().count(). -/
def addMatchCount (w : String) : Nat :=
  addSet.countP (fun p => patMatches p (lowerList w.toList))

/-- Vowel-group count: self.vowel_group.find_iter(text).count() for the
case-insensitive regex [aeiou]+. -/
def vowelGroupCount (w : String) : Nat :=
  countRuns isVowel w.toList

/-- Kincaid::syllables_in_word, transcribed from lib.rs:
vowel groups plus distinct ADD matches minus distinct SUB matches, with
the comparison made before the (unsigned) subtraction. -/
def syllables_in_word (w : String) : Nat :=
  let count := vowelGroupCount w
  let add := addMatchCount w
  let sub := subMatchCount w
  if count + add < sub + 1 then 1 else count + add - sub

/-! ### The tokenizer

The word regex of lib.rs is (word-boundary)(letters(hyphen-or-apostrophe
letters)?)(word-boundary), case-insensitive, and words are produced by
find_iter: scan left to right, at each position try to match (greedy with
backtracking), emit the match and resume after it.  For this particular
regex backtracking inside a letter run can never recover a failed trailing
word boundary (the shortened run would be followed by a letter), so the
matcher below only needs maximal letter runs and the two boundary checks. -/

/-- Letters, for the word pattern letter class (Unicode modelled over ASCII). -/
def isLetter (c : Char) : Bool :=
  c.isAlpha

/-- Passes the trailing word-boundary test: end of input or a non-word
character next. -/
def restBoundaryOK : List Char → Bool
  | [] => true
  | c :: _ => !isWordChar c

/-- Try the optional (hyphen-or-apostrophe letters) group at the given rest
of input, including the trailing word boundary after it; returns the group
characters and the rest on success. -/
def tryGroup : List Char → Option (List Char × List Char)
  | d :: e :: rest2 =>
    if (d = '-' || d = apos) && isLetter e then
      let sp := (e :: rest2).span isLetter
      if restBoundaryOK sp.2 then some (d :: sp.1, sp.2) else none
    else none
  | _ => none

/-- One find_iter scan step: prevWC tells whether the previous character was
a word character (for the leading word boundary).  Fuel bounds the number of
steps; every recursive call consumes at least one character, so an initial
fuel of the input length is enough. -/
def wordsAux (p : Char → Bool) : Nat → Bool → List Char → List (List Char)
  | 0, _, _ => []
  | _, _, [] => []
  | fuel + 1, prevWC, c :: rest =>
    if p c && !prevWC then
      let sp := (c :: rest).span p
      match tryGroup sp.2 with
      | some (g, rest3) => (sp.1 ++ g) :: wordsAux p fuel true rest3
      | none =>
        if restBoundaryOK sp.2 then sp.1 :: wordsAux p fuel true sp.2
        else wordsAux p fuel (isWordChar c) rest
    else wordsAux p fuel (isWordChar c) rest

/-- The word tokens of a text, as produced by word.find_iter: the literal
matched substrings, in order. -/
def wordsOf (t : String) : List (List Char) :=
  wordsAux isLetter t.toList.length false t.toList

/-- Kincaid::word_count: self.word.find_iter(text).count(). -/
def word_count (t : String) : Nat :=
  (wordsOf t).length

/-- Kincaid::sentence_count: max(1, sentence.find_iter(text).count()) for
the regex [.?!]+. -/
def sentence_count (t : String) : Nat :=
  max 1 (countRuns isSentChar t.toList)

/-- Kincaid::syllable_count: the sum of syllables_in_word over the word
tokens of the text. -/
def syllable_count (t : String) : Nat :=
  ((wordsOf t).map (fun w => syllables_in_word (String.mk w))).sum

example : syllable_count "" = 0 := by decide
example : syllable_count "Hello" = 2 := by decide

/-! ### An exact model of the f64 values used by the formulas

Arithmetic on rationals is exact; IEEE special values are carried
explicitly.  For the formulas of lib.rs, whose magnitudes never overflow
f64 and whose claims are insensitive to rounding, this is a faithful
model of f64 addition, multiplication, division, ordering and clamp. -/

/-- A floating-point value: a finite (exact) number, an infinity, or NaN. -/
inductive FP where
  | num (q : ℚ)
  | pinf
  | ninf
  | nan
deriving DecidableEq

/-- IEEE negation. -/
def FP.neg : FP → FP
  | FP.num q => FP.num (-q)
  | FP.pinf => FP.ninf
  | FP.ninf => FP.pinf
  | FP.nan => FP.nan

/-- IEEE addition (exact on finite values). -/
def FP.add : FP → FP → FP
  | FP.nan, _ => FP.nan
  | _, FP.nan => FP.nan
  | FP.num a, FP.num b => FP.num (a + b)
  | FP.num _, FP.pinf => FP.pinf
  | FP.pinf, FP.num _ => FP.pinf
  | FP.num _, FP.ninf => FP.ninf
  | FP.ninf, FP.num _ => FP.ninf
  | FP.pinf, FP.pinf => FP.pinf
  | FP.ninf, FP.ninf => FP.ninf
  | FP.pinf, FP.ninf => FP.nan
  | FP.ninf, FP.pinf => FP.nan

/-- IEEE subtraction: a + (-b). -/
def FP.sub (a b : FP) : FP :=
  FP.add a (FP.neg b)

/-- IEEE multiplication (exact on finite values; zero times infinity is NaN). -/
def FP.mul : FP → FP → FP
  | FP.nan, _ => FP.nan
  | _, FP.nan => FP.nan
  | FP.num a, FP.num b => FP.num (a * b)
  | FP.num a, FP.pinf => if 0 < a then FP.pinf else if a < 0 then FP.ninf else FP.nan
  | FP.pinf, FP.num a => if 0 < a then FP.pinf else if a < 0 then FP.ninf else FP.nan
  | FP.num a, FP.ninf => if 0 < a then FP.ninf else if a < 0 then FP.pinf else FP.nan
  | FP.ninf, FP.num a => if 0 < a then FP.ninf else if a < 0 then FP.pinf else FP.nan
  | FP.pinf, FP.pinf => FP.pinf
  | FP.pinf, FP.ninf => FP.ninf
  | FP.ninf, FP.pinf => FP.ninf
  | FP.ninf, FP.ninf => FP.pinf

/-- IEEE division (exact on finite values; the zero denominators produced by
the casts of lib.rs are positive zero, so a nonzero numerator over zero is a
signed infinity and zero over zero is NaN). -/
def FP.div : FP → FP → FP
  | FP.nan, _ => FP.nan
  | _, FP.nan => FP.nan
  | FP.num a, FP.num b =>
    if b = 0 then (if a = 0 then FP.nan else if 0 < a then FP.pinf else FP.ninf)
    else FP.num (a / b)
  | FP.num _, FP.pinf => FP.num 0
  | FP.num _, FP.ninf => FP.num 0
  | FP.pinf, FP.num b => if 0 ≤ b then FP.pinf else FP.ninf
  | FP.ninf, FP.num b => if 0 ≤ b then FP.ninf else FP.pinf
  | FP.pinf, FP.pinf => FP.nan
  | FP.pinf, FP.ninf => FP.nan
  | FP.ninf, FP.pinf => FP.nan
  | FP.ninf, FP.ninf => FP.nan

/-- IEEE strict order; false whenever NaN is involved. -/
def FP.lt : FP → FP → Bool
  | FP.num a, FP.num b => a < b
  | FP.num _, FP.pinf => true
  | FP.ninf, FP.num _ => true
  | FP.ninf, FP.pinf => true
  | _, _ => false

/-- IEEE non-strict order; false whenever NaN is involved. -/
def FP.le : FP → FP → Bool
  | FP.num a, FP.num b => a ≤ b
  | FP.num _, FP.pinf => true
  | FP.ninf, FP.num _ => true
  | FP.ninf, FP.pinf => true
  | FP.ninf, FP.ninf => true
  | FP.pinf, FP.pinf => true
  | _, _ => false

/-- f64::clamp of Rust: if self < min then min else if self > max then max
else self; NaN is propagated unchanged. -/
def FP.clamp (x lo hi : FP) : FP :=
  if FP.lt x lo then lo else if FP.lt hi x then hi else x

/-- The f64 value of a usize count. -/
def fpOfNat (n : Nat) : FP :=
  FP.num n

/-- x is a finite value within the closed rational interval [lo, hi]. -/
def FP.inRange (x : FP) (lo hi : ℚ) : Prop :=
  ∃ q : ℚ, x = FP.num q ∧ lo ≤ q ∧ q ≤ hi

/-! ### The scorer (struct Scorer) -/

/-- The accumulated totals of a Scorer (the borrowed matcher it also holds
is the fixed pattern set embedded above). -/
structure ScorerState where
  words : Nat
  syllables : Nat
  sentences : Nat
deriving DecidableEq

/-- Scorer::new: all totals start at zero. -/
def Scorer.new : ScorerState :=
  ⟨0, 0, 0⟩

/-- Scorer::add: increment the totals by the counts of one chunk. -/
def Scorer.add (st : ScorerState) (t : String) : ScorerState :=
  ⟨st.words + word_count t, st.syllables + syllable_count t, st.sentences + sentence_count t⟩

/-- Scorer::grade_level, transcribed from lib.rs:
0.39 * (words / sentences) + 11.8 * (syllables / words) - 15.9,
returned as 1.0 when it compares below 1.0. -/
def Scorer.grade_level (st : ScorerState) : FP :=
  let g :=
    FP.sub
      (FP.add
        (FP.mul (FP.num 0.39) (FP.div (fpOfNat st.words) (fpOfNat st.sentences)))
        (FP.mul (FP.num 11.8) (FP.div (fpOfNat st.syllables) (fpOfNat st.words))))
      (FP.num 15.9)
  if FP.lt g (FP.num 1) then FP.num 1 else g

/-- Scorer::reading_ease, transcribed from lib.rs (note the precedence:
1.015 * words as f64 / sentences as f64 is (1.015 * words) / sentences):
206.835 - 1.015 * words / sentences - 84.6 * syllables / words,
clamped to [0.0, 100.0]. -/
def Scorer.reading_ease (st : ScorerState) : FP :=
  FP.clamp
    (FP.sub
      (FP.sub (FP.num 206.835)
        (FP.div (FP.mul (FP.num 1.015) (fpOfNat st.words)) (fpOfNat st.sentences)))
      (FP.div (FP.mul (FP.num 84.6) (fpOfNat st.syllables)) (fpOfNat st.words)))
    (FP.num 0) (FP.num 100)

/-- Kincaid::reading_ease: a fresh scorer, one add, then the score. -/
def Kincaid.reading_ease (t : String) : FP :=
  Scorer.reading_ease (Scorer.add Scorer.new t)

/-- Kincaid::grade_level: a fresh scorer, one add, then the score. -/
def Kincaid.grade_level (t : String) : FP :=
  Scorer.grade_level (Scorer.add Scorer.new t)

/-- The accumulator state reached by a fresh scorer after adding the given
chunks in order. -/
def scoreAll (ts : List String) : ScorerState :=
  ts.foldl Scorer.add Scorer.new

/-! ### The descriptors (ReadingEase::description, GradeLevel::description) -/

/-- Range::contains for f64: lo <= x && x < hi under IEEE comparison. -/
def rangeHas (lo hi : ℚ) (x : FP) : Bool :=
  FP.le (FP.num lo) x && FP.lt x (FP.num hi)

/-- RangeInclusive::contains for f64: lo <= x && x <= hi. -/
def rangeInclHas (lo hi : ℚ) (x : FP) : Bool :=
  FP.le (FP.num lo) x && FP.le x (FP.num hi)

/-- ReadingEase::description, transcribed from lib.rs: the first range of
the chain that contains the score yields the (short, long) pair; none
models the unreachable_unchecked fall-through. -/
def ReadingEase.description (x : FP) : Option (String × String) :=
  if rangeHas 0 10 x then
    some ("Professional",
      "Extremely difficult to read. Best understood by university graduates.")
  else if rangeHas 10 30 x then
    some ("College graduate",
      "Very difficult to read. Best understood by university graduates.")
  else if rangeHas 30 50 x then
    some ("College", "Difficult to read.")
  else if rangeHas 50 60 x then
    some ("10th to 12th grade", "Fairly difficult to read.")
  else if rangeHas 60 70 x then
    some ("8th & 9th grade",
      "Plain English. Easily understood by 13- to 15-year-old students.")
  else if rangeHas 70 80 x then
    some ("7th grade", "Fairly easy to read.")
  else if rangeHas 80 90 x then
    some ("6th grade", "Easy to read. Conversational English for consumers.")
  else if rangeInclHas 90 100 x then
    some ("5th grade",
      "Very easy to read. Easily understood by an average 11-year-old student.")
  else none

/-- One band of the descriptor table: lower bound, upper bound, whether the
upper bound is included, and the two labels. -/
structure Band where
  lo : ℚ
  hi : ℚ
  hiIncl : Bool
  short : String
  long : String
deriving DecidableEq

/-- Does the band interval contain q? -/
def bandMem (q : ℚ) (b : Band) : Bool :=
  decide (b.lo ≤ q) && (if b.hiIncl then decide (q ≤ b.hi) else decide (q < b.hi))

/-- The eight descriptor bands of lib.rs, in source order. -/
def reBands : List Band := [
  ⟨0, 10, false, "Professional",
    "Extremely difficult to read. Best understood by university graduates."⟩,
  ⟨10, 30, false, "College graduate",
    "Very difficult to read. Best understood by university graduates."⟩,
  ⟨30, 50, false, "College", "Difficult to read."⟩,
  ⟨50, 60, false, "10th to 12th grade", "Fairly difficult to read."⟩,
  ⟨60, 70, false, "8th & 9th grade",
    "Plain English. Easily understood by 13- to 15-year-old students."⟩,
  ⟨70, 80, false, "7th grade", "Fairly easy to read."⟩,
  ⟨80, 90, false, "6th grade", "Easy to read. Conversational English for consumers."⟩,
  ⟨90, 100, true, "5th grade",
    "Very easy to read. Easily understood by an average 11-year-old student."⟩]

/-- Truncation toward zero, as f64::trunc: the numerator divided by the
(positive) denominator, rounding toward zero. -/
def ratTrunc (q : ℚ) : Int :=
  q.num.tdiv q.den

/-- The saturating cast (as i32) applied to an already-truncated value. -/
def i32clamp (n : Int) : Int :=
  if n < -2147483648 then -2147483648 else if 2147483647 < n then 2147483647 else n

/-- self.0.trunc() as i32 of lib.rs: truncate toward zero, then saturate to
the i32 range; NaN casts to 0, infinities to the respective extreme. -/
def fpToI32 : FP → Int
  | FP.num q => i32clamp (ratTrunc q)
  | FP.pinf => 2147483647
  | FP.ninf => -2147483648
  | FP.nan => 0

/-- The match of GradeLevel::description on the integer part: 1st, 2nd and
3rd grade are special-cased, every other value n is rendered n-th grade. -/
def ordinalLabel (n : Int) : String :=
  if n = 1 then "1st grade"
  else if n = 2 then "2nd grade"
  else if n = 3 then "3rd grade"
  else toString n ++ "th grade"

/-- GradeLevel::description, transcribed from lib.rs. -/
def GradeLevel.description (x : FP) : String :=
  ordinalLabel (fpToI32 x)

/-! ### Helper lemmas -/

lemma FP.add_nan_right (x : FP) : FP.add x FP.nan = FP.nan := by
  cases x <;> rfl

lemma FP.sub_nan_right (x : FP) : FP.sub x FP.nan = FP.nan := by
  cases x <;> rfl

lemma FP.lt_nan_left (x : FP) : FP.lt FP.nan x = false := by
  cases x <;> rfl

lemma FP.lt_nan_right (x : FP) : FP.lt x FP.nan = false := by
  cases x <;> rfl

lemma FP.clamp_nan (lo hi : FP) : FP.clamp FP.nan lo hi = FP.nan := by
  rw [FP.clamp, FP.lt_nan_left, FP.lt_nan_right]
  rfl

/-- A text with no word tokens contributes no syllables. -/
lemma syllable_count_of_no_words (t : String) (h : word_count t = 0) :
    syllable_count t = 0 := by
  rw [word_count, List.length_eq_zero] at h
  rw [syllable_count, h]
  rfl

lemma sentence_count_pos (t : String) : 1 ≤ sentence_count t :=
  Nat.le_max_left 1 _

/-- The two accumulator invariants, preserved by every add: a state with no
words has no syllables, and a state with a word has a sentence. -/
lemma foldl_add_inv (ts : List String) :
    ∀ st : ScorerState,
      (st.words = 0 → st.syllables = 0) → (1 ≤ st.words → 1 ≤ st.sentences) →
      ((ts.foldl Scorer.add st).words = 0 → (ts.foldl Scorer.add st).syllables = 0) ∧
        (1 ≤ (ts.foldl Scorer.add st).words → 1 ≤ (ts.foldl Scorer.add st).sentences) := by
  induction ts with
  | nil => intro st h1 h2; exact ⟨h1, h2⟩
  | cons t ts ih =>
    intro st h1 h2
    rw [List.foldl_cons]
    apply ih
    · intro h
      simp only [Scorer.add] at h ⊢
      have hw : st.words = 0 := by omega
      have hwt : word_count t = 0 := by omega
      rw [h1 hw, syllable_count_of_no_words t hwt]
    · intro _
      simp only [Scorer.add]
      have := sentence_count_pos t
      omega

lemma scoreAll_words_zero_syllables (ts : List String)
    (h : (scoreAll ts).words = 0) : (scoreAll ts).syllables = 0 :=
  (foldl_add_inv ts Scorer.new (fun _ => rfl) (fun hw => absurd hw (by decide))).1 h

lemma scoreAll_sentences_pos (ts : List String)
    (h : 1 ≤ (scoreAll ts).words) : 1 ≤ (scoreAll ts).sentences :=
  (foldl_add_inv ts Scorer.new (fun _ => rfl) (fun hw => absurd hw (by decide))).2 h

/-! ### The claims -/

/-- C1: for every word w, syllables_in_word w equals vowel_groups + add -
sub, where vowel_groups is the count of maximal runs of the vowels
a, e, i, o, u (case-insensitive) in w, add and sub are the numbers of
distinct ADD and SUB patterns matching anywhere in w (each pattern counted
at most once); except that when vowel_groups + add < sub + 1, checked
before the subtraction, the result is exactly 1.  Consequently the result
is at least 1 for every word. -/
theorem syllables_in_word_formula (w : String) :
    (syllables_in_word w =
      if runStarts isVowel w.toList + addMatchCount w < subMatchCount w + 1 then 1
      else runStarts isVowel w.toList + addMatchCount w - subMatchCount w) ∧
    1 ≤ syllables_in_word w := by
  have hv : vowelGroupCount w = runStarts isVowel w.toList :=
    countRuns_eq_runStarts isVowel w.toList
  constructor
  · simp only [syllables_in_word, hv]
  · simp only [syllables_in_word]
    split
    · exact le_refl 1
    · omega

/-- C2 counterexample: the exception tables do not have 73 SUB and 148 ADD
entries. -/
theorem pattern_table_sizes_counterexample :
    ¬(SUB_PATTERNS.length = 73 ∧ ADD_PATTERNS.length = 148) := by
  decide

/-- C2, amended: the two fixed exception-pattern lists compiled at
construction contain exactly 74 SUB patterns and exactly 133 ADD patterns,
and every one of them compiles. -/
theorem pattern_table_sizes :
    SUB_PATTERNS.length = 74 ∧ ADD_PATTERNS.length = 133 ∧
      subSet.length = 74 ∧ addSet.length = 133 := by
  refine ⟨by decide, by decide, by decide, by decide⟩

/-- C5: for every text, sentence_count is the number of non-overlapping
matches of the sentence-boundary pattern, one or more consecutive
characters from the dot / question mark / exclamation mark class forming a
single match (counted here as run starts), with a minimum of 1; in
particular it is at least 1 even without terminal punctuation. -/
theorem sentence_count_spec (t : String) :
    sentence_count t = max 1 (runStarts isSentChar t.toList) ∧
      1 ≤ sentence_count t := by
  have h := countRuns_eq_runStarts isSentChar t.toList
  exact ⟨by rw [sentence_count, h], sentence_count_pos t⟩

/-- C7: the one-shot reading_ease and grade_level on the engine are
extensionally equal to constructing a fresh scorer, adding exactly that
one text, and reading the respective score. -/
theorem one_shot_equiv (t : String) :
    Kincaid.reading_ease t = Scorer.reading_ease (Scorer.add Scorer.new t) ∧
      Kincaid.grade_level t = Scorer.grade_level (Scorer.add Scorer.new t) :=
  ⟨rfl, rfl⟩

/-- C8: accumulation is order-independent: from any starting state, adding
a then b yields the same totals as adding b then a. -/
theorem add_order_independent (st : ScorerState) (a b : String) :
    Scorer.add (Scorer.add st a) b = Scorer.add (Scorer.add st b) a := by
  simp only [Scorer.add, ScorerState.mk.injEq]
  omega

/-! ### The score range claims -/

lemma reading_ease_nan_of (w syl s : Nat) (hw : w = 0) (hsy : syl = 0) :
    Scorer.reading_ease ⟨w, syl, s⟩ = FP.nan := by
  subst hw hsy
  simp only [Scorer.reading_ease, fpOfNat, Nat.cast_zero, FP.mul, mul_zero]
  rw [show FP.div (FP.num 0) (FP.num 0) = FP.nan from rfl]
  rw [FP.sub_nan_right, FP.clamp_nan]

lemma grade_level_nan_of (w syl s : Nat) (hw : w = 0) (hsy : syl = 0) :
    Scorer.grade_level ⟨w, syl, s⟩ = FP.nan := by
  subst hw hsy
  simp only [Scorer.grade_level, fpOfNat, Nat.cast_zero]
  rw [show FP.div (FP.num 0) (FP.num 0) = FP.nan from rfl]
  rw [show FP.mul (FP.num 11.8) FP.nan = FP.nan from rfl]
  rw [FP.add_nan_right]
  rw [show FP.sub FP.nan (FP.num 15.9) = FP.nan from rfl]
  rw [show FP.lt FP.nan (FP.num 1) = false from rfl]
  simp

lemma reading_ease_range_of (w syl s : Nat) (hw : 1 ≤ w) (hs : 1 ≤ s) :
    FP.inRange (Scorer.reading_ease ⟨w, syl, s⟩) 0 100 := by
  have hw' : ((w : ℚ)) ≠ 0 := Nat.cast_ne_zero.mpr (by omega)
  have hs' : ((s : ℚ)) ≠ 0 := Nat.cast_ne_zero.mpr (by omega)
  simp only [Scorer.reading_ease, fpOfNat, FP.mul]
  simp only [FP.div]
  rw [if_neg hs', if_neg hw']
  simp only [FP.sub, FP.neg, FP.add]
  rw [FP.clamp]
  split_ifs with h1 h2
  · exact ⟨0, rfl, le_refl 0, by norm_num⟩
  · exact ⟨100, rfl, by norm_num, le_refl 100⟩
  · simp only [FP.lt, decide_eq_true_eq] at h1 h2
    exact ⟨_, rfl, le_of_not_lt h1, le_of_not_lt h2⟩

/-- C3, amended: for every reachable accumulator state holding at least one
word, the value returned by reading_ease is a finite score in the closed
interval from 0 to 100 (the formula is clamped after computation). -/
theorem reading_ease_range (ts : List String) (h : 1 ≤ (scoreAll ts).words) :
    FP.inRange (Scorer.reading_ease (scoreAll ts)) 0 100 := by
  have hs := scoreAll_sentences_pos ts h
  exact reading_ease_range_of (scoreAll ts).words (scoreAll ts).syllables
    (scoreAll ts).sentences h hs

theorem reading_ease_range_witness :
    1 ≤ (scoreAll ["a"]).words ∧
      FP.inRange (Scorer.reading_ease (scoreAll ["a"])) 0 100 :=
  ⟨by decide, reading_ease_range ["a"] (by decide)⟩

/-- C3 counterexample: on the empty text (zero words, a reachable state)
the one-shot reading_ease returns NaN, which does not lie in the interval
from 0 to 100. -/
theorem reading_ease_range_counterexample :
    Kincaid.reading_ease "" = FP.nan ∧ ¬ FP.inRange (Kincaid.reading_ease "") 0 100 := by
  have hst : Scorer.add Scorer.new "" = ⟨0, 0, 1⟩ := by decide
  have h : Kincaid.reading_ease "" = FP.nan := by
    rw [Kincaid.reading_ease, hst]
    exact reading_ease_nan_of 0 0 1 rfl rfl
  refine ⟨h, ?_⟩
  rintro ⟨q, hq, -, -⟩
  rw [h] at hq
  exact FP.noConfusion hq

lemma grade_level_min_of (w syl s : Nat) (hw : 1 ≤ w) (hs : 1 ≤ s) :
    ∃ q : ℚ, Scorer.grade_level ⟨w, syl, s⟩ = FP.num q ∧ 1 ≤ q := by
  have hw' : ((w : ℚ)) ≠ 0 := Nat.cast_ne_zero.mpr (by omega)
  have hs' : ((s : ℚ)) ≠ 0 := Nat.cast_ne_zero.mpr (by omega)
  simp only [Scorer.grade_level, fpOfNat]
  simp only [FP.div]
  rw [if_neg hs', if_neg hw']
  simp only [FP.mul, FP.sub, FP.neg, FP.add]
  split_ifs with h1
  · exact ⟨1, rfl, le_refl 1⟩
  · simp only [FP.lt, decide_eq_true_eq] at h1
    exact ⟨_, rfl, le_of_not_lt h1⟩

/-- C4, amended: for every reachable accumulator state holding at least one
word, the value returned by grade_level is a finite score of at least 1
(the formula is floored at 1 after computation). -/
theorem grade_level_min (ts : List String) (h : 1 ≤ (scoreAll ts).words) :
    ∃ q : ℚ, Scorer.grade_level (scoreAll ts) = FP.num q ∧ 1 ≤ q := by
  have hs := scoreAll_sentences_pos ts h
  exact grade_level_min_of (scoreAll ts).words (scoreAll ts).syllables
    (scoreAll ts).sentences h hs

theorem grade_level_min_witness :
    1 ≤ (scoreAll ["it"]).words ∧
      ∃ q : ℚ, Scorer.grade_level (scoreAll ["it"]) = FP.num q ∧ 1 ≤ q :=
  ⟨by decide, grade_level_min ["it"] (by decide)⟩

/-- C4 counterexample: on the empty text (zero words, a reachable state)
the one-shot grade_level returns NaN, which is not a value of at least 1. -/
theorem grade_level_min_counterexample :
    Kincaid.grade_level "" = FP.nan ∧
      ¬ ∃ q : ℚ, Kincaid.grade_level "" = FP.num q ∧ 1 ≤ q := by
  have hst : Scorer.add Scorer.new "" = ⟨0, 0, 1⟩ := by decide
  have h : Kincaid.grade_level "" = FP.nan := by
    rw [Kincaid.grade_level, hst]
    exact grade_level_nan_of 0 0 1 rfl rfl
  refine ⟨h, ?_⟩
  rintro ⟨q, hq, -⟩
  rw [h] at hq
  exact FP.noConfusion hq

/-! ### The zero-word NaN claim -/

/-- C10: a reachable accumulator state whose word total is zero (no add, or
only chunks without words) makes both scores NaN rather than an error or a
sentinel: the syllables-over-words division is NaN, the clamp propagates
NaN, and the below-one floor test is false for NaN; and a fresh Scorer
starts with all three totals zero. -/
theorem zero_words_nan (ts : List String) (h : (scoreAll ts).words = 0) :
    Scorer.reading_ease (scoreAll ts) = FP.nan ∧
      Scorer.grade_level (scoreAll ts) = FP.nan ∧
      Scorer.new = ⟨0, 0, 0⟩ := by
  have hsyl := scoreAll_words_zero_syllables ts h
  exact ⟨reading_ease_nan_of (scoreAll ts).words (scoreAll ts).syllables
      (scoreAll ts).sentences h hsyl,
    grade_level_nan_of (scoreAll ts).words (scoreAll ts).syllables
      (scoreAll ts).sentences h hsyl, rfl⟩

theorem zero_words_nan_witness :
    (scoreAll [""]).words = 0 ∧
      (Scorer.reading_ease (scoreAll [""]) = FP.nan ∧
        Scorer.grade_level (scoreAll [""]) = FP.nan ∧
        Scorer.new = ⟨0, 0, 0⟩) :=
  ⟨by decide, zero_words_nan [""] (by decide)⟩

/-! ### The descriptor claims -/

/-- The rational eleven and a half, used to exercise truncation. -/
def elevenHalf : ℚ := ⟨23, 2, by norm_num, by norm_num⟩

/-- C9: GradeLevel.description maps the integer part n of the score to an
ordinal label: 1, 2 and 3 yield 1st, 2nd and 3rd grade, and every n of at
least 4 yields n-th grade with the suffix always th (no special ordinal
handling for 11, 12, 13, 21 and so on); in particular a score with integer
part 11 yields 11th grade. -/
theorem grade_level_ordinal (n : ℤ) (h : 4 ≤ n) :
    ordinalLabel n = toString n ++ "th grade" ∧
      ordinalLabel 1 = "1st grade" ∧
      ordinalLabel 2 = "2nd grade" ∧
      ordinalLabel 3 = "3rd grade" ∧
      GradeLevel.description (FP.num elevenHalf) = "11th grade" := by
  refine ⟨?_, by decide, by decide, by decide, by decide⟩
  rw [ordinalLabel, if_neg (by omega), if_neg (by omega), if_neg (by omega)]

theorem grade_level_ordinal_witness :
    4 ≤ (11 : ℤ) ∧
      (ordinalLabel 11 = toString (11 : ℤ) ++ "th grade" ∧
        ordinalLabel 1 = "1st grade" ∧
        ordinalLabel 2 = "2nd grade" ∧
        ordinalLabel 3 = "3rd grade" ∧
        GradeLevel.description (FP.num elevenHalf) = "11th grade") :=
  ⟨by decide, grade_level_ordinal 11 (by decide)⟩

/-- C6: on the clamped range, ReadingEase.description maps the score
through eight contiguous, non-overlapping half-open bands covering 0 to
100: every such value lies in exactly one band (the filter over the band
table is a singleton) and the descriptor chain returns exactly that band;
each interior boundary value belongs to the upper band, so exactly 10
yields College graduate, not Professional, and 90 through 100 inclusive
yield 5th grade. -/
theorem reading_ease_bands (q : ℚ) (h0 : 0 ≤ q) (h100 : q ≤ 100) :
    (∃ b : Band, reBands.filter (fun x => bandMem q x) = [b] ∧
        ReadingEase.description (FP.num q) = some (b.short, b.long)) ∧
      ReadingEase.description (FP.num 10) =
        some ("College graduate",
          "Very difficult to read. Best understood by university graduates.") ∧
      ReadingEase.description (FP.num 90) =
        some ("5th grade",
          "Very easy to read. Easily understood by an average 11-year-old student.") ∧
      ReadingEase.description (FP.num 100) =
        some ("5th grade",
          "Very easy to read. Easily understood by an average 11-year-old student.") := by
  refine ⟨?_, by decide, by decide, by decide⟩
  rcases lt_or_le q 10 with h | h10
  · have n1 : ¬(10:ℚ) ≤ q := not_le.2 h
    have n2 : ¬(30:ℚ) ≤ q := not_le.2 (h.trans_le (by norm_num))
    have n3 : ¬(50:ℚ) ≤ q := not_le.2 (h.trans_le (by norm_num))
    have n4 : ¬(60:ℚ) ≤ q := not_le.2 (h.trans_le (by norm_num))
    have n5 : ¬(70:ℚ) ≤ q := not_le.2 (h.trans_le (by norm_num))
    have n6 : ¬(80:ℚ) ≤ q := not_le.2 (h.trans_le (by norm_num))
    have n7 : ¬(90:ℚ) ≤ q := not_le.2 (h.trans_le (by norm_num))
    refine ⟨⟨0, 10, false, "Professional",
      "Extremely difficult to read. Best understood by university graduates."⟩, ?_, ?_⟩ <;>
      simp [reBands, List.filter_cons, bandMem, ReadingEase.description, rangeHas,
        rangeInclHas, FP.le, FP.lt, h0, h, n1, n2, n3, n4, n5, n6, n7]
  · rcases lt_or_le q 30 with h | h30
    · have e1 : ¬ q < 10 := not_lt.2 h10
      have n2 : ¬(30:ℚ) ≤ q := not_le.2 h
      have n3 : ¬(50:ℚ) ≤ q := not_le.2 (h.trans_le (by norm_num))
      have n4 : ¬(60:ℚ) ≤ q := not_le.2 (h.trans_le (by norm_num))
      have n5 : ¬(70:ℚ) ≤ q := not_le.2 (h.trans_le (by norm_num))
      have n6 : ¬(80:ℚ) ≤ q := not_le.2 (h.trans_le (by norm_num))
      have n7 : ¬(90:ℚ) ≤ q := not_le.2 (h.trans_le (by norm_num))
      refine ⟨⟨10, 30, false, "College graduate",
        "Very difficult to read. Best understood by university graduates."⟩, ?_, ?_⟩ <;>
        simp [reBands, List.filter_cons, bandMem, ReadingEase.description, rangeHas,
          rangeInclHas, FP.le, FP.lt, h10, h, e1, n2, n3, n4, n5, n6, n7]
    · rcases lt_or_le q 50 with h | h50
      · have e1 : ¬ q < 10 := not_lt.2 (le_trans (by norm_num) h30)
        have e2 : ¬ q < 30 := not_lt.2 h30
        have n3 : ¬(50:ℚ) ≤ q := not_le.2 h
        have n4 : ¬(60:ℚ) ≤ q := not_le.2 (h.trans_le (by norm_num))
        have n5 : ¬(70:ℚ) ≤ q := not_le.2 (h.trans_le (by norm_num))
        have n6 : ¬(80:ℚ) ≤ q := not_le.2 (h.trans_le (by norm_num))
        have n7 : ¬(90:ℚ) ≤ q := not_le.2 (h.trans_le (by norm_num))
        refine ⟨⟨30, 50, false, "College", "Difficult to read."⟩, ?_, ?_⟩ <;>
          simp [reBands, List.filter_cons, bandMem, ReadingEase.description, rangeHas,
            rangeInclHas, FP.le, FP.lt, h30, h, e1, e2, n3, n4, n5, n6, n7]
      · rcases lt_or_le q 60 with h | h60
        · have e1 : ¬ q < 10 := not_lt.2 (le_trans (by norm_num) h50)
          have e2 : ¬ q < 30 := not_lt.2 (le_trans (by norm_num) h50)
          have e3 : ¬ q < 50 := not_lt.2 h50
          have n4 : ¬(60:ℚ) ≤ q := not_le.2 h
          have n5 : ¬(70:ℚ) ≤ q := not_le.2 (h.trans_le (by norm_num))
          have n6 : ¬(80:ℚ) ≤ q := not_le.2 (h.trans_le (by norm_num))
          have n7 : ¬(90:ℚ) ≤ q := not_le.2 (h.trans_le (by norm_num))
          refine ⟨⟨50, 60, false, "10th to 12th grade", "Fairly difficult to read."⟩, ?_, ?_⟩ <;>
            simp [reBands, List.filter_cons, bandMem, ReadingEase.description, rangeHas,
              rangeInclHas, FP.le, FP.lt, h50, h, e1, e2, e3, n4, n5, n6, n7]
        · rcases lt_or_le q 70 with h | h70
          · have e1 : ¬ q < 10 := not_lt.2 (le_trans (by norm_num) h60)
            have e2 : ¬ q < 30 := not_lt.2 (le_trans (by norm_num) h60)
            have e3 : ¬ q < 50 := not_lt.2 (le_trans (by norm_num) h60)
            have e4 : ¬ q < 60 := not_lt.2 h60
            have n5 : ¬(70:ℚ) ≤ q := not_le.2 h
            have n6 : ¬(80:ℚ) ≤ q := not_le.2 (h.trans_le (by norm_num))
            have n7 : ¬(90:ℚ) ≤ q := not_le.2 (h.trans_le (by norm_num))
            refine ⟨⟨60, 70, false, "8th & 9th grade",
              "Plain English. Easily understood by 13- to 15-year-old students."⟩, ?_, ?_⟩ <;>
              simp [reBands, List.filter_cons, bandMem, ReadingEase.description, rangeHas,
                rangeInclHas, FP.le, FP.lt, h60, h, e1, e2, e3, e4, n5, n6, n7]
          · rcases lt_or_le q 80 with h | h80
            · have e1 : ¬ q < 10 := not_lt.2 (le_trans (by norm_num) h70)
              have e2 : ¬ q < 30 := not_lt.2 (le_trans (by norm_num) h70)
              have e3 : ¬ q < 50 := not_lt.2 (le_trans (by norm_num) h70)
              have e4 : ¬ q < 60 := not_lt.2 (le_trans (by norm_num) h70)
              have e5 : ¬ q < 70 := not_lt.2 h70
              have n6 : ¬(80:ℚ) ≤ q := not_le.2 h
              have n7 : ¬(90:ℚ) ≤ q := not_le.2 (h.trans_le (by norm_num))
              refine ⟨⟨70, 80, false, "7th grade", "Fairly easy to read."⟩, ?_, ?_⟩ <;>
                simp [reBands, List.filter_cons, bandMem, ReadingEase.description, rangeHas,
                  rangeInclHas, FP.le, FP.lt, h70, h, e1, e2, e3, e4, e5, n6, n7]
            · rcases lt_or_le q 90 with h | h90
              · have e1 : ¬ q < 10 := not_lt.2 (le_trans (by norm_num) h80)
                have e2 : ¬ q < 30 := not_lt.2 (le_trans (by norm_num) h80)
                have e3 : ¬ q < 50 := not_lt.2 (le_trans (by norm_num) h80)
                have e4 : ¬ q < 60 := not_lt.2 (le_trans (by norm_num) h80)
                have e5 : ¬ q < 70 := not_lt.2 (le_trans (by norm_num) h80)
                have e6 : ¬ q < 80 := not_lt.2 h80
                have n7 : ¬(90:ℚ) ≤ q := not_le.2 h
                refine ⟨⟨80, 90, false, "6th grade",
                  "Easy to read. Conversational English for consumers."⟩, ?_, ?_⟩ <;>
                  simp [reBands, List.filter_cons, bandMem, ReadingEase.description, rangeHas,
                    rangeInclHas, FP.le, FP.lt, h80, h, e1, e2, e3, e4, e5, e6, n7]
              · have e1 : ¬ q < 10 := not_lt.2 (le_trans (by norm_num) h90)
                have e2 : ¬ q < 30 := not_lt.2 (le_trans (by norm_num) h90)
                have e3 : ¬ q < 50 := not_lt.2 (le_trans (by norm_num) h90)
                have e4 : ¬ q < 60 := not_lt.2 (le_trans (by norm_num) h90)
                have e5 : ¬ q < 70 := not_lt.2 (le_trans (by norm_num) h90)
                have e6 : ¬ q < 80 := not_lt.2 (le_trans (by norm_num) h90)
                have e7 : ¬ q < 90 := not_lt.2 h90
                refine ⟨⟨90, 100, true, "5th grade",
                  "Very easy to read. Easily understood by an average 11-year-old student."⟩, ?_, ?_⟩ <;>
                  simp [reBands, List.filter_cons, bandMem, ReadingEase.description, rangeHas,
                    rangeInclHas, FP.le, FP.lt, h90, h100, e1, e2, e3, e4, e5, e6, e7]

theorem reading_ease_bands_witness :
    (0:ℚ) ≤ 55 ∧ (55:ℚ) ≤ 100 ∧
      ((∃ b : Band, reBands.filter (fun x => bandMem 55 x) = [b] ∧
          ReadingEase.description (FP.num 55) = some (b.short, b.long)) ∧
        ReadingEase.description (FP.num 10) =
          some ("College graduate",
            "Very difficult to read. Best understood by university graduates.") ∧
        ReadingEase.description (FP.num 90) =
          some ("5th grade",
            "Very easy to read. Easily understood by an average 11-year-old student.") ∧
        ReadingEase.description (FP.num 100) =
          some ("5th grade",
            "Very easy to read. Easily understood by an average 11-year-old student.")) :=
  ⟨by norm_num, by norm_num, reading_ease_bands 55 (by norm_num) (by norm_num)⟩

/-! ### The test expectations of lib.rs, reproduced by the embedding -/

example : syllable_count "Hello World" = 3 := by decide
example : syllable_count "Test-case" = 2 := by decide
example : syllable_count "Hello, World! This is a test" = 7 := by decide
example : syllable_count "Zylka" = 2 := by decide
example : syllables_in_word "unaware" = 3 := by decide
example : syllables_in_word "sum" = 1 := by decide
example : syllables_in_word "some" = 1 := by decide
example : syllables_in_word "pernicious" = 3 := by decide
example : syllables_in_word "egregious" = 3 := by decide
example : word_count "sample text" = 2 := by decide
example : word_count "$5 only" = 1 := by decide
example : word_count "This is noted in the book(1)" = 6 := by decide
example : sentence_count "" = 1 := by decide
example : sentence_count "Hi. There?! Ok..." = 3 := by decide
